import Mathlib

/-
  Verification development for the smart-scheduler repository.

  The embedding models:
  - the Intent Extractor (`task_extractor.py`): `extract_events_from_conversation`
    post-processing of the LLM JSON payload, including Python exception
    behaviour of the try/except blocks, and `analyze_user_patterns`;
  - the chat forward path (`main.py` `chat`): persisting extracted events and
    best-effort remote creation;
  - the CRUD endpoints (`main.py` `get_events`, `update_event`, `delete_event`)
    and the pull-sync endpoint (`sync_calendar`);
  - the Remote Calendar Adapter (`calendar_sync.py`), whose network outcomes are
    modelled by an oracle (the provider is an external collaborator).

  Python datetimes are modelled as `Int` timestamps (seconds); the fixed-format
  parse `datetime.strptime(s, "%Y-%m-%d %H:%M:%S")` is modelled by `strptime`
  below with an injective encoding of the parsed fields, and
  `timedelta(hours=1)` is 3600 seconds.  JSON values and the other Python
  values flowing through the extractor are modelled by `PyVal`; exceptions by
  `Except PyErr`.  The session is created with `autoflush=False`
  (`database.py`), so queries inside `sync_calendar` see only the state
  committed before the request: the duplicate check runs against the initial
  database, and pending inserts are committed at the end of the loop.
-/

namespace SmartScheduler

/-- Python values as they appear in the extractor pipeline: JSON scalars,
lists, dicts (insertion-ordered, unique keys), plus `datetime` objects
(`pdt`, an encoded timestamp) produced by parsing.  A JSON float (`pfloat`)
carries its source literal and is otherwise opaque: no floating-point
arithmetic is modelled, and none is needed — the pipeline only ever treats a
float as "some non-string, non-datetime value" (`strptime` raises TypeError
on it, membership/equality tests against the ASCII key strings are False). -/
inductive PyVal where
  | pnull : PyVal
  | pbool : Bool → PyVal
  | pint : Int → PyVal
  | pfloat : String → PyVal
  | pstr : String → PyVal
  | plist : List PyVal → PyVal
  | pdict : List (String × PyVal) → PyVal
  | pdt : Int → PyVal

/-- Python exception classes relevant to the modelled code paths. -/
inductive PyErr where
  | typeError : PyErr
  | keyError : PyErr
  | valueError : PyErr
  | attributeError : PyErr
deriving DecidableEq

/-- Dict lookup, `d[k]` / `d.get(k)`: first (unique) binding of the key. -/
def dictFind (l : List (String × PyVal)) (k : String) : Option PyVal :=
  match l with
  | [] => none
  | (k2, v) :: rest => if k2 = k then some v else dictFind rest k

/-- Dict assignment `d[k] = v`: replaces the value in place (the key keeps its
slot, as in Python dicts), appending the pair when the key is new. -/
def dictSet (l : List (String × PyVal)) (k : String) (v : PyVal) :
    List (String × PyVal) :=
  match l with
  | [] => [(k, v)]
  | (k2, v2) :: rest =>
      if k2 = k then (k2, v) :: rest else (k2, v2) :: dictSet rest k v

/-- `d.get(k, default)`. -/
def pyGetD (l : List (String × PyVal)) (k : String) (d : PyVal) : PyVal :=
  (dictFind l k).getD d

/-- Decimal value of a digit character. -/
def digitVal (c : Char) : Option Nat :=
  if c.isDigit then some (c.toNat - 48) else none

/-- Hexadecimal value of a digit character (both cases). -/
def hexVal (c : Char) : Option Nat :=
  if c.isDigit then some (c.toNat - 48)
  else if 97 ≤ c.toNat && c.toNat ≤ 102 then some (c.toNat - 87)
  else if 65 ≤ c.toNat && c.toNat ≤ 70 then some (c.toNat - 55)
  else none

/-- Four hexadecimal digits. -/
def read4Hex (a b c d : Char) : Option Nat := do
  let x ← hexVal a
  let y ← hexVal b
  let z ← hexVal c
  let w ← hexVal d
  pure (((x * 16 + y) * 16 + z) * 16 + w)

/-- Two fixed decimal digits. -/
def read2 (a b : Char) : Option Nat := do
  let x ← digitVal a
  let y ← digitVal b
  pure (x * 10 + y)

/-- Four fixed decimal digits. -/
def read4 (a b c d : Char) : Option Nat := do
  let x ← read2 a b
  let y ← read2 c d
  pure (x * 100 + y)

/-- Days in a month, with leap years (`datetime` validates day-of-month). -/
def daysInMonth (y m : Nat) : Nat :=
  if m = 2 then
    if y % 4 = 0 && (y % 100 ≠ 0 || y % 400 = 0) then 29 else 28
  else if m = 4 || m = 6 || m = 9 || m = 11 then 30
  else 31

/-- Injective encoding of a calendar datetime into an `Int` timestamp of
seconds; one hour is 3600.  (The encoding is only compared against itself, so
only injectivity and second-granularity matter.) -/
def encodeDT (y mo d h mi s : Nat) : Int :=
  (((((y * 1000 + mo * 50 + d) * 24 + h) * 60 + mi) * 60 + s : Nat) : Int)

/-- Range validation performed by `datetime(...)` construction. -/
def validYmdHms (y mo d h mi s : Nat) : Bool :=
  1 ≤ mo && mo ≤ 12 && 1 ≤ d && d ≤ daysInMonth y mo &&
    h ≤ 23 && mi ≤ 59 && s ≤ 59

/-- `datetime.strptime(s, "%Y-%m-%d %H:%M:%S")` on the fixed 19-character
format: `none` models the `ValueError` raised on a non-matching string. -/
def strptime (str : String) : Option Int :=
  match str.toList with
  | [y1, y2, y3, y4, d1, m1, m2, d2, dd1, dd2, sp, h1, h2, c1, mi1, mi2, c2,
      s1, s2] =>
    if d1 = '-' && d2 = '-' && sp = ' ' && c1 = ':' && c2 = ':' then do
      let y ← read4 y1 y2 y3 y4
      let mo ← read2 m1 m2
      let d ← read2 dd1 dd2
      let h ← read2 h1 h2
      let mi ← read2 mi1 mi2
      let s ← read2 s1 s2
      if validYmdHms y mo d h mi s then pure (encodeDT y mo d h mi s)
      else none
    else none
  | _ => none

/-- `datetime.fromisoformat` as used by the sync path: accepts a plain date
`YYYY-MM-DD`, or date, one separator character, and `HH:MM:SS`, optionally
followed by a `+HH:MM` / `-HH:MM` offset (the offset only tags the value as
aware; the encoded instant keeps the written wall-clock fields). -/
def fromisoformat (str : String) : Option Int :=
  match str.toList with
  | [y1, y2, y3, y4, d1, m1, m2, d2, dd1, dd2] =>
    if d1 = '-' && d2 = '-' then do
      let y ← read4 y1 y2 y3 y4
      let mo ← read2 m1 m2
      let d ← read2 dd1 dd2
      if validYmdHms y mo d 0 0 0 then pure (encodeDT y mo d 0 0 0) else none
    else none
  | y1 :: y2 :: y3 :: y4 :: d1 :: m1 :: m2 :: d2 :: dd1 :: dd2 :: _sep :: h1 ::
      h2 :: c1 :: mi1 :: mi2 :: c2 :: s1 :: s2 :: rest =>
    if d1 = '-' && d2 = '-' && c1 = ':' && c2 = ':' then do
      let y ← read4 y1 y2 y3 y4
      let mo ← read2 m1 m2
      let d ← read2 dd1 dd2
      let h ← read2 h1 h2
      let mi ← read2 mi1 mi2
      let s ← read2 s1 s2
      let offOk : Bool :=
        match rest with
        | [] => true
        | [o, o1, o2, oc, o3, o4] =>
          (o = '+' || o = '-') && oc = ':' &&
            (read2 o1 o2).isSome && (read2 o3 o4).isSome
        | _ => false
      if offOk && validYmdHms y mo d h mi s then pure (encodeDT y mo d h mi s)
      else none
    else none
  | _ => none

def lbraceC : Char := Char.ofNat 123

def rbraceC : Char := Char.ofNat 125

/-- JSON whitespace skipping. -/
def skipWs : List Char → List Char
  | [] => []
  | c :: cs =>
      if c = ' ' || c = '\t' || c = '\n' || c = '\r' then skipWs cs else c :: cs

/-- The single-character JSON string escapes. -/
def jEsc (c : Char) : Option Char :=
  if c = '"' then some '"'
  else if c = '\\' then some '\\'
  else if c = '/' then some '/'
  else if c = 'b' then some (Char.ofNat 8)
  else if c = 'f' then some (Char.ofNat 12)
  else if c = 'n' then some '\n'
  else if c = 'r' then some '\r'
  else if c = 't' then some '\t'
  else none

/-- Body of a JSON string after the opening quote: decoded characters and the
remaining input after the closing quote (fuel-indexed only for termination —
each step consumes at least one character, so the `length + 1` fuel supplied
at the call sites never runs out), with `json.loads`'s strict rules: a
raw control character (below U+0020) is rejected; a `\uXXXX` escape decodes
to its scalar value and a surrogate pair combines into one character.  An
unpaired surrogate escape — which Python keeps as a lone surrogate code unit
that Lean strings cannot carry — is mapped to U+FFFD; the substitution
cannot change which branch the extractor takes, because the pipeline only
compares strings against ASCII literals (the key names and the fixed ASCII
date format) and one non-ASCII character replaced by another non-ASCII
character can neither create nor destroy such a match. -/
def jStrBody : Nat → List Char → Option (List Char × List Char)
  | 0, _ => none
  | _, [] => none
  | f + 1, c :: cs =>
    if c = '"' then some ([], cs)
    else if c = '\\' then
      match cs with
      | 'u' :: h1 :: h2 :: h3 :: h4 :: rest2 =>
        match read4Hex h1 h2 h3 h4 with
        | none => none
        | some n =>
          if 55296 ≤ n && n ≤ 56319 then
            match rest2 with
            | '\\' :: 'u' :: g1 :: g2 :: g3 :: g4 :: rest3 =>
              match read4Hex g1 g2 g3 g4 with
              | none => none
              | some m =>
                if 56320 ≤ m && m ≤ 57343 then
                  match jStrBody f rest3 with
                  | none => none
                  | some (acc, rest) =>
                    some (Char.ofNat
                      (65536 + (n - 55296) * 1024 + (m - 56320)) :: acc, rest)
                else
                  match jStrBody f rest2 with
                  | none => none
                  | some (acc, rest) => some (Char.ofNat 65533 :: acc, rest)
            | _ =>
              match jStrBody f rest2 with
              | none => none
              | some (acc, rest) => some (Char.ofNat 65533 :: acc, rest)
          else if 56320 ≤ n && n ≤ 57343 then
            match jStrBody f rest2 with
            | none => none
            | some (acc, rest) => some (Char.ofNat 65533 :: acc, rest)
          else
            match jStrBody f rest2 with
            | none => none
            | some (acc, rest) => some (Char.ofNat n :: acc, rest)
      | e :: cs2 =>
        match jEsc e with
        | none => none
        | some ec =>
          match jStrBody f cs2 with
          | none => none
          | some (acc, rest) => some (ec :: acc, rest)
      | [] => none
    else if c.toNat < 32 then none
    else
      match jStrBody f cs with
      | none => none
      | some (acc, rest) => some (c :: acc, rest)

/-- Leading run of decimal digits. -/
def takeDigits : List Char → List Char × List Char
  | [] => ([], [])
  | c :: cs =>
    if c.isDigit then
      let (ds, rest) := takeDigits cs
      (c :: ds, rest)
    else ([], c :: cs)

/-- Decimal digits to a natural number. -/
def digitsToNat (ds : List Char) : Nat :=
  ds.foldl (fun a c => a * 10 + (c.toNat - 48)) 0

/-- A JSON number, with `json.loads`'s grammar: optional minus, an integer
part without leading zeros, then an optional fraction and exponent.  A
fraction or exponent makes a Python float, modelled opaquely by `pfloat`
carrying the literal text; Python's decoder also accepts the non-standard
`Infinity` after the minus sign (the bare `Infinity`/`NaN` constants are
dispatched in `jVal`). -/
def jNum (cs0 : List Char) : Option (PyVal × List Char) :=
  let sign : Bool × List Char :=
    match cs0 with
    | '-' :: rest => (true, rest)
    | _ => (false, cs0)
  match sign.2 with
  | 'I' :: 'n' :: 'f' :: 'i' :: 'n' :: 'i' :: 't' :: 'y' :: rest =>
    some (.pfloat (if sign.1 then ("-Infinity") else ("Infinity")), rest)
  | cs1 =>
    let (ds, rest) := takeDigits cs1
    if ds = [] then none
    else if 1 < ds.length && ds.headD ' ' = '0' then none
    else
      let fracRes : Option (List Char × List Char) :=
        match rest with
        | '.' :: rest2 =>
          let (fs, rest3) := takeDigits rest2
          if fs = [] then none else some ('.' :: fs, rest3)
        | _ => some ([], rest)
      match fracRes with
      | none => none
      | some (fracCs, rest4) =>
        let expRes : Option (List Char × List Char) :=
          match rest4 with
          | e :: rest5 =>
            if e = 'e' || e = 'E' then
              match rest5 with
              | s :: rest6 =>
                if s = '+' || s = '-' then
                  let (es, rest7) := takeDigits rest6
                  if es = [] then none else some (e :: s :: es, rest7)
                else
                  let (es, rest7) := takeDigits rest5
                  if es = [] then none else some (e :: es, rest7)
              | [] => none
            else some ([], rest4)
          | [] => some ([], rest4)
        match expRes with
        | none => none
        | some (expCs, rest8) =>
          if fracCs = [] && expCs = [] then
            some (.pint (if sign.1 then -((digitsToNat ds : Nat) : Int)
                         else ((digitsToNat ds : Nat) : Int)), rest8)
          else
            some (.pfloat (String.mk
              ((if sign.1 then ['-'] else []) ++ ds ++ fracCs ++ expCs)), rest8)

mutual

/-- Fuel-indexed JSON value parser (the fuel only bounds nesting; it is
instantiated generously from the input length in `jsonLoads`). -/
def jVal : Nat → List Char → Option (PyVal × List Char)
  | 0, _ => none
  | f + 1, cs0 =>
    match skipWs cs0 with
    | [] => none
    | c :: cs =>
      if c = lbraceC then jObj f (skipWs cs)
      else if c = '[' then jArr f (skipWs cs)
      else if c = '"' then
        match jStrBody (cs.length + 1) cs with
        | none => none
        | some (body, rest) => some (.pstr (String.mk body), rest)
      else if c = 't' then
        match cs with
        | 'r' :: 'u' :: 'e' :: rest => some (.pbool true, rest)
        | _ => none
      else if c = 'f' then
        match cs with
        | 'a' :: 'l' :: 's' :: 'e' :: rest => some (.pbool false, rest)
        | _ => none
      else if c = 'n' then
        match cs with
        | 'u' :: 'l' :: 'l' :: rest => some (.pnull, rest)
        | _ => none
      else if c = 'N' then
        match cs with
        | 'a' :: 'N' :: rest => some (.pfloat ("NaN"), rest)
        | _ => none
      else if c = 'I' then
        match cs with
        | 'n' :: 'f' :: 'i' :: 'n' :: 'i' :: 't' :: 'y' :: rest =>
          some (.pfloat ("Infinity"), rest)
        | _ => none
      else jNum (c :: cs)

/-- Object body after the opening brace (whitespace already skipped). -/
def jObj : Nat → List Char → Option (PyVal × List Char)
  | 0, _ => none
  | f + 1, cs =>
    match cs with
    | [] => none
    | c :: cs2 => if c = rbraceC then some (.pdict [], cs2) else jMembers f [] cs

/-- Object members; duplicate keys overwrite earlier ones, as in Python. -/
def jMembers : Nat → List (String × PyVal) → List Char →
    Option (PyVal × List Char)
  | 0, _, _ => none
  | f + 1, acc, cs =>
    match skipWs cs with
    | [] => none
    | c :: cs2 =>
      if c = '"' then
        match jStrBody (cs2.length + 1) cs2 with
        | none => none
        | some (kcs, rest) =>
          match skipWs rest with
          | ':' :: rest2 =>
            match jVal f rest2 with
            | none => none
            | some (v, rest3) =>
              let acc2 := dictSet acc (String.mk kcs) v
              match skipWs rest3 with
              | ',' :: rest4 => jMembers f acc2 rest4
              | c2 :: rest4 =>
                if c2 = rbraceC then some (.pdict acc2, rest4) else none
              | [] => none
          | _ => none
      else none

/-- Array body after the opening bracket (whitespace already skipped). -/
def jArr : Nat → List Char → Option (PyVal × List Char)
  | 0, _ => none
  | f + 1, cs =>
    match cs with
    | [] => none
    | c :: cs2 => if c = ']' then some (.plist [], cs2) else jElems f [] cs

/-- Array elements. -/
def jElems : Nat → List PyVal → List Char → Option (PyVal × List Char)
  | 0, _, _ => none
  | f + 1, acc, cs =>
    match jVal f cs with
    | none => none
    | some (v, rest) =>
      match skipWs rest with
      | ',' :: rest2 => jElems f (acc ++ [v]) rest2
      | ']' :: rest2 => some (.plist (acc ++ [v]), rest2)
      | _ => none

end

/-- `json.loads`: a full-input parse (trailing whitespace allowed), with the
decoder's default behaviour: objects with last-duplicate-wins keys, strict
rejection of raw control characters in strings, `\uXXXX` escapes and
surrogate pairs, integers without leading zeros, floats (kept opaque as
`pfloat`), and the non-standard `NaN`/`Infinity`/`-Infinity` constants.  The
fuel is generous: parsing descends at most three calls per consumed input
character, so `3 * (length + 1)` never runs out before the input does. -/
def jsonLoads (s : String) : Option PyVal :=
  match jVal (3 * (s.toList.length + 1)) s.toList with
  | some (v, rest) => if skipWs rest = [] then some v else none
  | none => none

/-- Lines 73-77 of `task_extractor.py`: `raw.index(&quot;&#x7b;&quot;)`,
`raw.rindex` of the closing brace plus one, slice, `json.loads`; `none`
models any exception inside that `try` (ValueError from index/rindex or a
JSON decode error), which the source maps to the parse fallback. -/
def spanLoads (raw : String) : Option PyVal :=
  let cs := raw.toList
  match cs.findIdx? (fun c => c = lbraceC) with
  | none => none
  | some start =>
    match cs.reverse.findIdx? (fun c => c = rbraceC) with
    | none => none
    | some rj => jsonLoads (String.mk ((cs.drop start).take (cs.length - rj - start)))

/-- JSON escaping of one character for `json.dumps`. -/
def jsonEscChar (c : Char) : String :=
  if c = '"' then "\\\""
  else if c = '\\' then "\\\\"
  else if c = '\n' then "\\n"
  else if c = '\r' then "\\r"
  else if c = '\t' then "\\t"
  else String.singleton c

/-- A JSON string literal for `json.dumps`. -/
def jsonQuote (s : String) : String :=
  "\"" ++ String.join (s.toList.map jsonEscChar) ++ "\""

mutual

/-- `json.dumps` with the default separators; `datetime` objects are not JSON
serializable, so `pdt` raises TypeError.  A float is emitted as its stored
source literal — Python would print `repr(float)`, which the model does not
compute; no claim reads the serialized attendees text, so only totality
matters here (json.dumps accepts floats). -/
def pyDumps : PyVal → Except PyErr String
  | .pnull => .ok ("null")
  | .pbool true => .ok ("true")
  | .pbool false => .ok ("false")
  | .pint n => .ok (toString n)
  | .pfloat lit => .ok (lit)
  | .pstr s => .ok (jsonQuote s)
  | .pdt _ => .error .typeError
  | .plist xs => do
    let ss ← pyDumpsList xs
    .ok ("[" ++ String.intercalate (", ") ss ++ "]")
  | .pdict xs => do
    let ss ← pyDumpsMembers xs
    .ok ("\x7b" ++ String.intercalate (", ") ss ++ "\x7d")

def pyDumpsList : List PyVal → Except PyErr (List String)
  | [] => .ok []
  | x :: xs => do
    let s ← pyDumps x
    let ss ← pyDumpsList xs
    .ok (s :: ss)

def pyDumpsMembers : List (String × PyVal) → Except PyErr (List String)
  | [] => .ok []
  | (k, v) :: xs => do
    let s ← pyDumps v
    let ss ← pyDumpsMembers xs
    .ok ((jsonQuote k ++ ": " ++ s) :: ss)

end

def startsWithChars : List Char → List Char → Bool
  | [], _ => true
  | _ :: _, [] => false
  | p :: ps, c :: cs => p = c && startsWithChars ps cs

/-- Substring test on character lists (Python `pat in s` for strings). -/
def containsSub (pat : List Char) : List Char → Bool
  | [] => pat.isEmpty
  | c :: cs => startsWithChars pat (c :: cs) || containsSub pat cs

def endTimePat : List Char := ("end_time").toList

/-- The `except` branch at line 97 of `task_extractor.py`:
`ev["end_time"] = ev["start_time"] + timedelta(hours=1)`.  This statement is
not inside any handler, so its own exceptions propagate: KeyError when
`start_time` is absent, TypeError when the current `start_time` value is not
a datetime (e.g. a raw string left by a failed parse). -/
def endDefault (fs1 : List (String × PyVal)) : Except PyErr PyVal :=
  match dictFind fs1 ("start_time") with
  | none => .error .keyError
  | some (.pdt t) => .ok (.pdict (dictSet fs1 ("end_time") (.pdt (t + 3600))))
  | some _ => .error .typeError

/-- First statement of the loop body (lines 88-91): `try: ev["start_time"] =
datetime.strptime(ev["start_time"], fmt) except: pass` on a dict event.  Any
failure (missing key, non-string value, unparsable string) is swallowed and
the field is left as it was. -/
def processStart (fs : List (String × PyVal)) : List (String × PyVal) :=
  match dictFind fs ("start_time") with
  | some (.pstr s) =>
    match strptime s with
    | some t => dictSet fs ("start_time") (.pdt t)
    | none => fs
  | _ => fs

/-- Second statement of the loop body (lines 93-97) on a dict event: when
`"end_time" in ev`, a parsable string becomes a datetime; any other failure
of the inner `try` falls into `endDefault`. -/
def processEnd (fs1 : List (String × PyVal)) : Except PyErr PyVal :=
  match dictFind fs1 ("end_time") with
  | none => .ok (.pdict fs1)
  | some (.pstr e) =>
    match strptime e with
    | some t => .ok (.pdict (dictSet fs1 ("end_time") (.pdt t)))
    | none => endDefault fs1
  | some _ => endDefault fs1

/-- Loop body, lines 87-97 of `task_extractor.py`, for one element `ev` of
`data.get("events", [])`.  For non-dict elements: `"end_time" in ev` is
substring search for strings, equality membership for lists, and raises
TypeError for other values; a hit on a string/list leads into the `except`
branch whose `ev["start_time"]` lookup raises TypeError on that `ev`. -/
def processEv (ev : PyVal) : Except PyErr PyVal :=
  match ev with
  | .pdict fs => processEnd (processStart fs)
  | .pstr s =>
    if containsSub endTimePat s.toList then .error .typeError else .ok ev
  | .plist xs =>
    if xs.any (fun v => match v with | .pstr s => s = ("end_time") | _ => false)
    then .error .typeError else .ok ev
  | _ => .error .typeError

/-- The first exception of the loop aborts it; later elements are not
processed (Python `for` over the list, mutating dict elements in place). -/
def mapExcept (f : PyVal → Except PyErr PyVal) : List PyVal →
    Except PyErr (List PyVal)
  | [] => .ok []
  | x :: xs =>
    match f x with
    | .error e => .error e
    | .ok b =>
      match mapExcept f xs with
      | .error e => .error e
      | .ok bs => .ok (b :: bs)

/-- Fallback returned when `_call_llm` produced an empty string (line 66). -/
def fallbackNoResponse : PyVal :=
  .pdict
    [(("response"), .pstr ("I\x27m here to help you schedule events and manage your calendar. What would you like to do?")),
     (("events"), .plist [])]

/-- Fallback returned when no JSON object could be parsed (line 78). -/
def fallbackParse : PyVal :=
  .pdict
    [(("response"), .pstr ("Sorry, I couldn\x27t understand that. Can you rephrase?")),
     (("events"), .plist [])]

/-- `extract_events_from_conversation` from the point where the LLM reply
`raw` (already `.strip()`ped by `_call_llm`; empty on transport failure) is
in hand: the empty-reply fallback, the span-parse with its fallback, and the
event post-processing loop.  The returned `data` reflects the in-place
mutations: dict events are rewritten; iterating a string or the keys of a
dict mutates nothing (strings are immutable and the loop variable is the key)
but can still raise. -/
def extract_events_from_conversation (raw : String) : Except PyErr PyVal :=
  if raw = "" then .ok fallbackNoResponse
  else
    match spanLoads raw with
    | none => .ok fallbackParse
    | some (.pdict fs) =>
      match dictFind fs ("events") with
      | none => .ok (.pdict fs)
      | some (.plist evs) =>
        match mapExcept processEv evs with
        | .ok evs2 => .ok (.pdict (dictSet fs ("events") (.plist evs2)))
        | .error e => .error e
      | some (.pstr s) =>
        match mapExcept processEv
            (s.toList.map (fun c => PyVal.pstr (String.singleton c))) with
        | .ok _ => .ok (.pdict fs)
        | .error e => .error e
      | some (.pdict kfs) =>
        match mapExcept processEv (kfs.map (fun p => PyVal.pstr p.1)) with
        | .ok _ => .ok (.pdict fs)
        | .error e => .error e
      | some _ => .error .typeError
    | some _ => .error .attributeError

/-- Outcome of one call into the external calendar provider: the service is
unconfigured (`get_calendar_service` returned None), the provider API raised,
or the call succeeded.  The provider is an external collaborator; its
behaviour is an oracle parameter. -/
inductive RemoteOutcome where
  | noService : RemoteOutcome
  | raiseErr : RemoteOutcome
  | success : RemoteOutcome
deriving DecidableEq

/-- Interior of `create_calendar_event` (`calendar_sync.py` lines 50-86)
before its own try/except: None when unconfigured, the provider-assigned id
on success, an exception when the API raises. -/
def create_calendar_event_body : RemoteOutcome → String →
    Except PyErr (Option String)
  | .noService, _ => .ok none
  | .raiseErr, _ => .error .valueError
  | .success, rid => .ok (some rid)

/-- `create_calendar_event`: the whole body is wrapped in try/except that
returns None, so the function never raises. -/
def create_calendar_event (o : RemoteOutcome) (rid : String) :
    Except PyErr (Option String) :=
  match create_calendar_event_body o rid with
  | .ok r => .ok r
  | .error _ => .ok none

/-- Interior of `update_calendar_event` (lines 104-134) before its own
try/except. -/
def update_calendar_event_body : RemoteOutcome → Except PyErr Bool
  | .noService => .ok false
  | .raiseErr => .error .valueError
  | .success => .ok true

/-- `update_calendar_event`: wrapped in try/except returning False, so it
never raises. -/
def update_calendar_event (o : RemoteOutcome) : Except PyErr Bool :=
  match update_calendar_event_body o with
  | .ok b => .ok b
  | .error _ => .ok false

/-- Interior of `delete_calendar_event` (lines 144-150). -/
def delete_calendar_event_body : RemoteOutcome → Except PyErr Bool
  | .noService => .ok false
  | .raiseErr => .error .valueError
  | .success => .ok true

/-- `delete_calendar_event`: wrapped in try/except returning False. -/
def delete_calendar_event (o : RemoteOutcome) : Except PyErr Bool :=
  match delete_calendar_event_body o with
  | .ok b => .ok b
  | .error _ => .ok false

/-- A local Event row created by the chat forward path (`main.py` lines
184-196): the field values come straight from the extractor payload, so a
date field that failed to parse is persisted as whatever `PyVal` it was. -/
structure ChatEventRow where
  title : PyVal
  description : PyVal
  start_time : PyVal
  end_time : PyVal
  location : PyVal
  attendees : String
  calendar_event_id : Option String
  synced_at : Option Int

/-- One iteration of the chat event loop (`main.py` lines 182-217) for one
extracted `event_data`: build and commit the Event row (`ev["title"]` and
`ev["start_time"]` are subscript lookups, so a missing key raises KeyError
out of the handler; the other fields use `.get`), then best-effort remote
creation inside try/except, stamping `calendar_event_id` and `synced_at`
only when a truthy (non-empty) remote id came back
(`if calendar_event_id:`). -/
def chatPersistEvent (o : RemoteOutcome) (rid : String) (now : Int)
    (ev : PyVal) : Except PyErr ChatEventRow :=
  match ev with
  | .pdict fs =>
    match dictFind fs ("title") with
    | none => .error .keyError
    | some title =>
      match dictFind fs ("start_time") with
      | none => .error .keyError
      | some st =>
        match pyDumps (pyGetD fs ("attendees") (.plist [])) with
        | .error e => .error e
        | .ok att =>
          let row : ChatEventRow :=
            { title := title, description := pyGetD fs ("description") .pnull,
              start_time := st, end_time := pyGetD fs ("end_time") .pnull,
              location := pyGetD fs ("location") .pnull, attendees := att,
              calendar_event_id := none, synced_at := none }
          match create_calendar_event o rid with
          | .ok (some cid) =>
            if cid = ("") then .ok row
            else
              .ok { row with calendar_event_id := some cid,
                             synced_at := some now }
          | .ok none => .ok row
          | .error _ => .ok row
  | _ => .error .typeError

/-- The chat event loop over all extracted events; `created` holds the rows
committed so far (each row is committed before the next draft is processed,
so rows persist even when a later draft raises), `err` the first uncaught
exception.  The oracles give the provider outcome and assigned id for the
i-th creation attempt. -/
def chatProcessEvents (o : Nat → RemoteOutcome) (rid : Nat → String)
    (now : Int) : Nat → List PyVal → List ChatEventRow × Option PyErr
  | _, [] => ([], none)
  | i, ev :: evs =>
    match chatPersistEvent (o i) (rid i) now ev with
    | .error e => ([], some e)
    | .ok row =>
      let rest := chatProcessEvents o rid now (i + 1) evs
      (row :: rest.1, rest.2)

/-- The chat forward path from the extractor result's events list. -/
def chatForward (o : Nat → RemoteOutcome) (rid : Nat → String) (now : Int)
    (evs : List PyVal) : List ChatEventRow × Option PyErr :=
  chatProcessEvents o rid now 0 evs

/-- An Event row of `database.py`, at the typed level used by the CRUD and
sync endpoints (datetimes as `Int` timestamps); defaults as in the column
definitions. -/
structure StoredEvent where
  id : Nat
  conversation_id : Option Nat := none
  message_id : Option Nat := none
  title : String
  description : Option String := none
  start_time : Int
  end_time : Option Int := none
  location : Option String := none
  attendees : Option String := none
  status : String := ("confirmed")
  calendar_event_id : Option String := none
  created_at : Int := 0
  updated_at : Int := 0
  synced_at : Option Int := none
  user_id : String := ("default_user")
deriving DecidableEq

/-- `GET /events` (`main.py` lines 297-306): filter
`Event.start_time >= datetime.utcnow()` — no status condition — ordered by
`start_time` ascending. -/
def get_events (now : Int) (db : List StoredEvent) : List StoredEvent :=
  (db.filter (fun e => now ≤ e.start_time)).insertionSort
    (fun a b => a.start_time ≤ b.start_time)

/-- `json.dumps` of a plain string list (`event_data.attendees or []`). -/
def dumpsStrList (xs : List String) : String :=
  "[" ++ String.intercalate (", ") (xs.map jsonQuote) ++ "]"

/-- The `EventCreate` request model (`models.py`). -/
structure EventCreate where
  title : String
  description : Option String := none
  start_time : Int
  end_time : Option Int := none
  location : Option String := none
  attendees : Option (List String) := none
deriving DecidableEq

/-- Replace the first row with the given id (the ORM updates the single
object returned by `.first()`). -/
def replaceFirst : List StoredEvent → Nat → StoredEvent → List StoredEvent
  | [], _, _ => []
  | e :: es, eid, v =>
    if e.id == eid then v :: es else e :: replaceFirst es eid v

/-- `PUT /events/{event_id}` (`main.py` lines 337-374): 404 when absent;
otherwise overwrite the fields from the request, and when the row carries a
truthy (non-empty) remote id, call `update_calendar_event` inside try/except
and stamp `synced_at = now` on normal return (the failure arm only skips the
stamp when the call raises). -/
def update_event (o : RemoteOutcome) (now : Int) (db : List StoredEvent)
    (eid : Nat) (d : EventCreate) : Except Nat (List StoredEvent × StoredEvent) :=
  match db.find? (fun e => e.id == eid) with
  | none => .error 404
  | some ev =>
    let ev1 :=
      { ev with title := d.title, description := d.description,
                start_time := d.start_time, end_time := d.end_time,
                location := d.location,
                attendees := some (dumpsStrList (d.attendees.getD [])),
                updated_at := now }
    let ev2 :=
      match ev1.calendar_event_id with
      | some rid =>
        if rid = ("") then ev1
        else
          match update_calendar_event o with
          | .ok _ => { ev1 with synced_at := some now }
          | .error _ => ev1
      | none => ev1
    .ok (replaceFirst db eid ev2, ev2)

/-- Observable steps of a delete request, for ordering/counting statements. -/
inductive DelAction where
  | remote : String → DelAction
  | localDelete : Nat → DelAction
deriving DecidableEq

/-- `DELETE /events/{event_id}` (`main.py` lines 376-396): 404 when absent;
when the row has a truthy (non-empty) remote id, `delete_calendar_event` is
attempted once
inside try/except (its Bool result is ignored and it cannot abort the local
delete), then the local row is deleted and committed.  The returned action
list records the calls in program order. -/
def delete_event (o : RemoteOutcome) (db : List StoredEvent) (eid : Nat) :
    Except Nat (List StoredEvent × List DelAction) :=
  match db.find? (fun e => e.id == eid) with
  | none => .error 404
  | some ev =>
    match ev.calendar_event_id with
    | some rid =>
      if rid = ("") then
        .ok (db.eraseP (fun e => e.id == eid), [DelAction.localDelete eid])
      else
        let _call := delete_calendar_event o
        .ok (db.eraseP (fun e => e.id == eid),
             [DelAction.remote rid, DelAction.localDelete eid])
    | none => .ok (db.eraseP (fun e => e.id == eid), [DelAction.localDelete eid])

/-- One element of `fetch_upcoming_events`'s result (`calendar_sync.py`
lines 182-190): provider id, title, optional description/location, ISO
date-time strings, status. -/
structure RemoteEvent where
  id : String
  title : String
  description : Option String := none
  start_time : String
  end_time : Option String := none
  location : Option String := none
  status : Option String := none
deriving DecidableEq

/-- `s.replace("Z", "+00:00")`: every occurrence of the one-character
pattern is replaced. -/
def replaceZ : List Char → List Char
  | [] => []
  | c :: cs =>
    if c = 'Z' then '+' :: '0' :: '0' :: ':' :: '0' :: '0' :: replaceZ cs
    else c :: replaceZ cs

/-- `datetime.fromisoformat(s.replace("Z", "+00:00"))`. -/
def parseRemoteTime (s : String) : Option Int :=
  fromisoformat (String.mk (replaceZ s.toList))

/-- Building the new local Event from a remote event (`main.py` lines
415-424); `none` models an exception from `fromisoformat` (which aborts the
whole sync request).  `g_event.get('end_time')` is truthiness-tested, so an
absent or empty end time yields `end_time = None`. -/
def syncRowEnd (g : RemoteEvent) : Option (Option Int) :=
  match g.end_time with
  | none => some none
  | some e =>
    if e = ("") then some none
    else
      match parseRemoteTime e with
      | none => none
      | some t => some (some t)

def syncRow (now : Int) (nid : Nat) (g : RemoteEvent) : Option StoredEvent :=
  match parseRemoteTime g.start_time with
  | none => none
  | some st =>
    match syncRowEnd g with
    | none => none
    | some et =>
      some { id := nid, title := g.title, description := g.description,
             start_time := st, end_time := et, location := g.location,
             status := g.status.getD ("confirmed"),
             calendar_event_id := some g.id,
             created_at := now, updated_at := now, synced_at := some now }

/-- The sync loop (`main.py` lines 407-426).  The session has
`autoflush=False` (`database.py`), so the `.first()` existence check only
sees `db`, the state committed before the request; pending `db.add`s are not
visible to it.  `none` models an exception mid-loop: the final `db.commit()`
is never reached and the pending inserts are discarded. -/
def syncGo (now : Int) (db : List StoredEvent) :
    Nat → List RemoteEvent → Option (List StoredEvent × Nat)
  | _, [] => some ([], 0)
  | nid, g :: gs =>
    if db.any (fun e => e.calendar_event_id == some g.id) then
      syncGo now db nid gs
    else
      match syncRow now nid g with
      | none => none
      | some row =>
        match syncGo now db (nid + 1) gs with
        | none => none
        | some (rows, c) => some (row :: rows, c + 1)

/-- `POST /sync-calendar` (`main.py` lines 398-433) given the already-fetched
remote list: on success the new rows are committed after the loop and the
count returned; on any exception the handler returns count 0 with nothing
committed. -/
def sync_calendar (now : Int) (nid : Nat) (db : List StoredEvent)
    (remote : List RemoteEvent) : List StoredEvent × Nat :=
  match syncGo now db nid remote with
  | none => (db, 0)
  | some (rows, c) => (db ++ rows, c)

/-- The hard-coded fallback of `analyze_user_patterns` (`task_extractor.py`
lines 227-232). -/
def analyze_user_patterns_fallback : PyVal :=
  .pdict
    [(("insights"), .plist [.pstr ("Not enough data to analyze patterns yet")]),
     (("suggestions"), .plist [.pstr ("Keep scheduling events to unlock insights")]),
     (("peak_hours"), .plist []),
     (("peak_days"), .plist [])]

/-- Python `str.strip()`: leading and trailing whitespace removed. -/
def pyStrip (s : String) : String :=
  String.mk (((s.toList.dropWhile (fun c =>
    c = ' ' || c = '\t' || c = '\n' || c = '\r' || c = '\x0b' ||
      c = '\x0c')).reverse.dropWhile (fun c =>
    c = ' ' || c = '\t' || c = '\n' || c = '\r' || c = '\x0b' ||
      c = '\x0c')).reverse)

/-- Splitting on each non-overlapping occurrence of the (non-empty) pattern
`p0 :: ps`, accumulating the current chunk in `acc` (Python `str.split`). -/
def splitOnList (p0 : Char) (ps : List Char) :
    List Char → List Char → List (List Char)
  | [], acc => [acc.reverse]
  | c :: cs, acc =>
    if startsWithChars (p0 :: ps) (c :: cs) then
      acc.reverse :: splitOnList p0 ps (cs.drop ps.length) []
    else splitOnList p0 ps cs (c :: acc)
termination_by s _ => s.length
decreasing_by
  · simp [List.length_drop]
    omega
  · simp

/-- Python `s.split(sep)` for a non-empty separator. -/
def pySplit (s : String) (sep : String) : List String :=
  match sep.toList with
  | [] => [s]
  | p0 :: ps => (splitOnList p0 ps s.toList []).map String.mk

/-- Code-fence stripping, lines 220-221:
`response_text.split("```json")[1].split("```")[0].strip()`. -/
def stripJsonFence (s : String) : String :=
  if startsWithChars (("```json").toList) s.toList then
    pyStrip ((pySplit ((pySplit s ("```json")).getD 1 ("")) ("```")).headD (""))
  else s

/-- `analyze_user_patterns` from the point where the LLM call either raised /
failed (`.error`) or returned text: `.strip()`, strip a code fence,
`json.loads`; every failure inside the `try` falls to the hard-coded
fallback. -/
def analyze_user_patterns (resp : Except PyErr String) : PyVal :=
  match resp with
  | .error _ => analyze_user_patterns_fallback
  | .ok text =>
    match jsonLoads (stripJsonFence (pyStrip text)) with
    | some v => v
    | none => analyze_user_patterns_fallback

/-- `GET /events/insights` (`main.py` lines 308-323): events created in the
trailing 30 days; an empty slice short-circuits to the empty structure,
otherwise the pattern analysis runs. -/
def get_event_insights (resp : Except PyErr String) (now : Int)
    (db : List StoredEvent) : PyVal :=
  let events := db.filter (fun e => now - 30 * 86400 ≤ e.created_at)
  if events.isEmpty then
    .pdict [(("insights"), .plist []), (("suggestions"), .plist [])]
  else analyze_user_patterns resp

/-- Field of a dict-shaped result (`r[k]` when `r` is a dict). -/
def pyField (r : PyVal) (k : String) : Option PyVal :=
  match r with
  | .pdict fs => dictFind fs k
  | _ => none

/-- Drafts on which the chat persistence step cannot raise: a dict carrying
`title` and `start_time` keys whose `attendees` value (defaulting to `[]`)
is JSON-serializable. -/
def chatEvOkB (ev : PyVal) : Bool :=
  match ev with
  | .pdict fs =>
    (dictFind fs ("title")).isSome && (dictFind fs ("start_time")).isSome &&
      (match pyDumps (pyGetD fs ("attendees") (.plist [])) with
       | .ok _ => true
       | .error _ => false)
  | _ => false

/-- A remote event whose date strings `fromisoformat` accepts (so inserting
it cannot raise). -/
def remoteParses (g : RemoteEvent) : Bool :=
  (parseRemoteTime g.start_time).isSome && (syncRowEnd g).isSome

/-- Concrete remote event for the sync witnesses. -/
def wRemote : RemoteEvent :=
  { id := ("r1"), title := ("Standup"), start_time := ("2025-06-01T10:00:00") }

/-- Concrete stored event carrying a remote id, for the CRUD witnesses. -/
def w6event : StoredEvent :=
  { id := 1, title := ("Standup"), start_time := 100,
    calendar_event_id := some ("gcal-1") }

/-- Concrete update payload for the C10 witness. -/
def w10data : EventCreate := { title := ("Standup v2"), start_time := 200 }

/-- Concrete well-formed draft for the chat witnesses. -/
def wDraft : PyVal :=
  .pdict [(("title"), .pstr ("Standup")), (("start_time"), .pdt 175012236000)]

instance : IsTotal StoredEvent (fun a b => a.start_time ≤ b.start_time) :=
  ⟨fun a b => Int.le_total a.start_time b.start_time⟩

instance : IsTrans StoredEvent (fun a b => a.start_time ≤ b.start_time) :=
  ⟨fun _ _ _ hab hbc => le_trans hab hbc⟩

theorem create_calendar_event_ok (o : RemoteOutcome) (rid : String) :
    ∃ r, create_calendar_event o rid = .ok r := by
  cases o <;> exact ⟨_, rfl⟩

theorem update_calendar_event_ok (o : RemoteOutcome) :
    ∃ b, update_calendar_event o = .ok b := by
  cases o <;> exact ⟨_, rfl⟩

theorem chatPersistEvent_eq (fs : List (String × PyVal)) (title st : PyVal)
    (att : String) (o : RemoteOutcome) (rid : String) (now : Int)
    (htv : dictFind fs ("title") = some title)
    (hsv : dictFind fs ("start_time") = some st)
    (hda : pyDumps (pyGetD fs ("attendees") (.plist [])) = .ok att) :
    chatPersistEvent o rid now (.pdict fs) = .ok (
      match create_calendar_event o rid with
      | .ok (some cid) =>
        if cid = ("") then
          { title := title, description := pyGetD fs ("description") .pnull,
            start_time := st, end_time := pyGetD fs ("end_time") .pnull,
            location := pyGetD fs ("location") .pnull, attendees := att,
            calendar_event_id := none, synced_at := none }
        else
          { title := title, description := pyGetD fs ("description") .pnull,
            start_time := st, end_time := pyGetD fs ("end_time") .pnull,
            location := pyGetD fs ("location") .pnull, attendees := att,
            calendar_event_id := some cid, synced_at := some now }
      | _ =>
        { title := title, description := pyGetD fs ("description") .pnull,
          start_time := st, end_time := pyGetD fs ("end_time") .pnull,
          location := pyGetD fs ("location") .pnull, attendees := att,
          calendar_event_id := none, synced_at := none }) := by
  simp only [chatPersistEvent, htv, hsv, hda]
  cases hc : create_calendar_event o rid with
  | ok r =>
    cases r with
    | some cid =>
      by_cases hcid : cid = ("")
      · simp [hcid]
      · simp [hcid]
    | none => rfl
  | error e => rfl

theorem chatPersistEvent_ok (ev : PyVal) (h : chatEvOkB ev = true)
    (o : RemoteOutcome) (rid : String) (now : Int) :
    ∃ row, chatPersistEvent o rid now ev = .ok row ∧
      (create_calendar_event o rid = .ok none →
        row.calendar_event_id = none ∧ row.synced_at = none) := by
  cases ev with
  | pdict fs =>
    simp only [chatEvOkB, Bool.and_eq_true] at h
    obtain ⟨⟨ht, hs⟩, ha⟩ := h
    obtain ⟨title, htv⟩ := Option.isSome_iff_exists.mp ht
    obtain ⟨st, hsv⟩ := Option.isSome_iff_exists.mp hs
    have hd : ∃ att, pyDumps (pyGetD fs ("attendees") (.plist [])) = .ok att := by
      cases hda : pyDumps (pyGetD fs ("attendees") (.plist [])) with
      | ok a => exact ⟨a, rfl⟩
      | error e => rw [hda] at ha; simp at ha
    obtain ⟨att, hda⟩ := hd
    have heq := chatPersistEvent_eq fs title st att o rid now htv hsv hda
    cases hc : create_calendar_event o rid with
    | ok r =>
      cases r with
      | some cid =>
        rw [hc] at heq
        refine ⟨_, heq, ?_⟩
        intro hcn
        simp at hcn
      | none =>
        rw [hc] at heq
        exact ⟨_, heq, fun _ => ⟨rfl, rfl⟩⟩
    | error e =>
      rw [hc] at heq
      exact ⟨_, heq, fun _ => ⟨rfl, rfl⟩⟩
  | pnull => simp [chatEvOkB] at h
  | pbool b => simp [chatEvOkB] at h
  | pint n => simp [chatEvOkB] at h
  | pfloat lit => simp [chatEvOkB] at h
  | pstr s => simp [chatEvOkB] at h
  | plist xs => simp [chatEvOkB] at h
  | pdt t => simp [chatEvOkB] at h

theorem chatProcessEvents_ok (o : Nat → RemoteOutcome) (rid : Nat → String)
    (now : Int) (evs : List PyVal) (j : Nat)
    (h : ∀ ev ∈ evs, chatEvOkB ev = true) :
    ∃ rows, chatProcessEvents o rid now j evs = (rows, none) ∧
      rows.length = evs.length ∧
      ∀ i (hi : i < rows.length),
        create_calendar_event (o (j + i)) (rid (j + i)) = .ok none →
        (rows.get ⟨i, hi⟩).calendar_event_id = none ∧
        (rows.get ⟨i, hi⟩).synced_at = none := by
  induction evs generalizing j with
  | nil => exact ⟨[], rfl, rfl, fun i hi => absurd hi (by simp)⟩
  | cons ev evs ih =>
    obtain ⟨row, hrow, hprop⟩ :=
      chatPersistEvent_ok ev (h ev (by simp)) (o j) (rid j) now
    obtain ⟨rows, hrows, hlen, hprops⟩ :=
      ih (j + 1) (fun a ha => h a (by simp [ha]))
    refine ⟨row :: rows, ?_, ?_, ?_⟩
    · simp [chatProcessEvents, hrow, hrows]
    · simp [hlen]
    · intro i hi hc
      cases i with
      | zero =>
        have := hprop (by simpa using hc)
        simpa using this
      | succ i2 =>
        have hidx : j + (i2 + 1) = j + 1 + i2 := by omega
        rw [hidx] at hc
        have := hprops i2 (by simpa using hi) hc
        simpa using this

theorem syncRow_remote_id (now : Int) (nid : Nat) (g : RemoteEvent)
    (row : StoredEvent) (h : syncRow now nid g = some row) :
    row.calendar_event_id = some g.id := by
  unfold syncRow at h
  cases hst : parseRemoteTime g.start_time with
  | none => rw [hst] at h; simp at h
  | some st =>
    rw [hst] at h
    cases het : syncRowEnd g with
    | none => rw [het] at h; simp at h
    | some et =>
      rw [het] at h
      simp only [Option.some.injEq] at h
      subst h
      rfl

theorem syncRow_of_parses (now : Int) (nid : Nat) (g : RemoteEvent)
    (h : remoteParses g = true) :
    ∃ row, syncRow now nid g = some row := by
  simp only [remoteParses, Bool.and_eq_true] at h
  obtain ⟨h1, h2⟩ := h
  obtain ⟨st, hst⟩ := Option.isSome_iff_exists.mp h1
  obtain ⟨et, het⟩ := Option.isSome_iff_exists.mp h2
  cases hs : syncRow now nid g with
  | some row => exact ⟨row, rfl⟩
  | none =>
    exfalso
    simp [syncRow, hst, het] at hs

theorem syncGo_all_present (now : Int) (db : List StoredEvent) (nid : Nat)
    (remote : List RemoteEvent)
    (h : ∀ g ∈ remote, db.any (fun e => e.calendar_event_id == some g.id) = true) :
    syncGo now db nid remote = some ([], 0) := by
  induction remote generalizing nid with
  | nil => rfl
  | cons g gs ih =>
    have hg := h g (by simp)
    have hrest := ih nid (fun a ha => h a (by simp [ha]))
    simp [syncGo, hg, hrest]

theorem syncGo_ok (now : Int) (db : List StoredEvent) (nid : Nat)
    (remote : List RemoteEvent)
    (h : ∀ g ∈ remote, remoteParses g = true) :
    ∃ rows c, syncGo now db nid remote = some (rows, c) := by
  induction remote generalizing nid with
  | nil => exact ⟨[], 0, rfl⟩
  | cons g gs ih =>
    obtain ⟨rows, c, hrest⟩ := ih (nid + 1) (fun a ha => h a (by simp [ha]))
    obtain ⟨rows2, c2, hrest2⟩ := ih nid (fun a ha => h a (by simp [ha]))
    by_cases hdup : db.any (fun e => e.calendar_event_id == some g.id) = true
    · exact ⟨rows2, c2, by simp [syncGo, hdup, hrest2]⟩
    · obtain ⟨row, hrow⟩ := syncRow_of_parses now nid g (h g (by simp))
      refine ⟨row :: rows, c + 1, ?_⟩
      simp only [syncGo, hrow, hrest]
      simp [hdup]

theorem syncGo_covers (now : Int) (db : List StoredEvent) (nid : Nat)
    (remote : List RemoteEvent) (rows : List StoredEvent) (c : Nat)
    (h : syncGo now db nid remote = some (rows, c)) (g : RemoteEvent)
    (hg : g ∈ remote) :
    (db ++ rows).any (fun e => e.calendar_event_id == some g.id) = true := by
  induction remote generalizing nid rows c with
  | nil => simp at hg
  | cons g2 gs ih =>
    by_cases hdup : db.any (fun e => e.calendar_event_id == some g2.id) = true
    · have hred : syncGo now db nid (g2 :: gs) = syncGo now db nid gs := by
        simp [syncGo, hdup]
      rw [hred] at h
      rcases List.mem_cons.mp hg with rfl | hg2
      · simp [List.any_append, hdup]
      · exact ih nid rows c h hg2
    · cases hrow : syncRow now nid g2 with
      | none =>
        exfalso
        simp [syncGo, hdup, hrow] at h
      | some row =>
        cases hrest : syncGo now db (nid + 1) gs with
        | none =>
          exfalso
          simp [syncGo, hdup, hrow, hrest] at h
        | some p =>
          obtain ⟨rows2, c2⟩ := p
          have hsplit : rows = row :: rows2 := by
            have hred : syncGo now db nid (g2 :: gs) = some (row :: rows2, c2 + 1) := by
              simp [syncGo, hdup, hrow, hrest]
            rw [hred] at h
            simp only [Option.some.injEq, Prod.mk.injEq] at h
            exact h.1.symm
          subst hsplit
          rcases List.mem_cons.mp hg with rfl | hg2
          · have hid := syncRow_remote_id now nid g row hrow
            rw [List.any_eq_true]
            exact ⟨row, by simp, by simp [hid]⟩
          · have hprev := ih (nid + 1) rows2 c2 hrest hg2
            rw [List.any_eq_true] at hprev ⊢
            obtain ⟨x, hx, hpx⟩ := hprev
            refine ⟨x, ?_, hpx⟩
            rcases List.mem_append.mp hx with hl | hr
            · exact List.mem_append.mpr (Or.inl hl)
            · exact List.mem_append.mpr (Or.inr (List.mem_cons_of_mem row hr))

/-- C2: for every model output that is empty (transport failure) or from
which no JSON object can be parsed (parse failure: `raw.index`/`raw.rindex`
raising, or `json.loads` failing on the brace-to-brace span),
`extract_events_from_conversation` returns a fallback result whose events
list is empty and whose reply is the corresponding generic prompt, raising
no exception to the caller. -/
theorem c2_extract_fallback_on_failure (raw : String)
    (h : raw = "" ∨ spanLoads raw = none) :
    ∃ r, extract_events_from_conversation raw = .ok r ∧
      pyField r ("events") = some (.plist []) ∧
      (r = fallbackNoResponse ∨ r = fallbackParse) := by
  by_cases he : raw = ""
  · refine ⟨fallbackNoResponse, ?_, rfl, Or.inl rfl⟩
    simp [extract_events_from_conversation, he]
  · rcases h with h1 | h2
    · exact absurd h1 he
    · refine ⟨fallbackParse, ?_, rfl, Or.inr rfl⟩
      simp [extract_events_from_conversation, he, h2]

/-- Witness for C2 at the concrete non-JSON reply. -/
theorem c2_extract_fallback_on_failure_witness :
    (("garbled reply" : String) = "" ∨ spanLoads ("garbled reply") = none) ∧
    (∃ r, extract_events_from_conversation ("garbled reply") = .ok r ∧
      pyField r ("events") = some (.plist []) ∧
      (r = fallbackNoResponse ∨ r = fallbackParse)) :=
  ⟨Or.inr rfl, c2_extract_fallback_on_failure ("garbled reply") (Or.inr rfl)⟩

/-- C9 counterexample: on a failing LLM call, `analyze_user_patterns` does
NOT return empty insights/suggestions lists — the fallback's insights list is
the singleton templated string, which differs from the empty list the claim
asserts. -/
theorem c9_insights_nonempty_cex :
    analyze_user_patterns (.error .valueError) = analyze_user_patterns_fallback ∧
    pyField analyze_user_patterns_fallback ("insights") =
      some (.plist [.pstr ("Not enough data to analyze patterns yet")]) ∧
    PyVal.plist [.pstr ("Not enough data to analyze patterns yet")] ≠
      PyVal.plist [] := by
  refine ⟨rfl, rfl, ?_⟩
  intro hx
  injection hx with hlist
  exact List.noConfusion hlist

/-- C9 amended: when the pattern analysis fails (LLM error, or a response
with no parsable JSON after code-fence stripping), `analyze_user_patterns`
returns the fixed fallback structure — one templated insight and one
templated suggestion, with empty `peak_hours` and `peak_days` lists — and
never propagates an error to the caller. -/
theorem c9_insights_fallback_amended (resp : Except PyErr String)
    (h : (∃ e, resp = .error e) ∨
      (∃ t, resp = .ok t ∧ jsonLoads (stripJsonFence (pyStrip t)) = none)) :
    analyze_user_patterns resp = analyze_user_patterns_fallback ∧
    pyField analyze_user_patterns_fallback ("peak_hours") = some (.plist []) ∧
    pyField analyze_user_patterns_fallback ("peak_days") = some (.plist []) := by
  refine ⟨?_, rfl, rfl⟩
  rcases h with ⟨e, rfl⟩ | ⟨t, rfl, hp⟩
  · rfl
  · simp [analyze_user_patterns, hp]

/-- Witness for the amended C9 at a concrete unparsable reply. -/
theorem c9_insights_fallback_amended_witness :
    (jsonLoads (stripJsonFence (pyStrip ("not json at all"))) = none) ∧
    analyze_user_patterns (Except.ok ("not json at all")) =
      analyze_user_patterns_fallback :=
  ⟨rfl,
   (c9_insights_fallback_amended (Except.ok ("not json at all"))
     (Or.inr ⟨("not json at all"), rfl, rfl⟩)).1⟩

/-- C6: deleting an Event whose remote calendar id is non-null performs the
adapter delete exactly once with that remote id, before the local deletion
(the action log is exactly [remote rid, localDelete eid]), and the local
deletion and the request complete for every provider outcome — including an
unconfigured or raising provider.  (Provider-assigned ids are non-empty; the
`rid ≠ ""` hypothesis mirrors the code's truthiness test
`if event.calendar_event_id:`.) -/
theorem c6_delete_remote_once (o : RemoteOutcome) (db : List StoredEvent)
    (eid : Nat) (ev : StoredEvent) (rid : String)
    (hfind : db.find? (fun e => e.id == eid) = some ev)
    (hrid : ev.calendar_event_id = some rid) (hne : rid ≠ ("")) :
    delete_event o db eid =
      .ok (db.eraseP (fun e => e.id == eid),
           [DelAction.remote rid, DelAction.localDelete eid]) ∧
    [DelAction.remote rid, DelAction.localDelete eid].count
      (DelAction.remote rid) = 1 := by
  constructor
  · simp [delete_event, hfind, hrid, hne]
  · simp [List.count_cons]

/-- Witness for C6 with a raising provider: the remote delete is attempted
once and the local row is still removed. -/
theorem c6_delete_remote_once_witness :
    ([w6event].find? (fun e => e.id == 1) = some w6event) ∧
    (w6event.calendar_event_id = some ("gcal-1")) ∧
    (("gcal-1" : String) ≠ ("")) ∧
    (delete_event RemoteOutcome.raiseErr [w6event] 1 =
      .ok ([w6event].eraseP (fun e => e.id == 1),
           [DelAction.remote ("gcal-1"), DelAction.localDelete 1]) ∧
     [DelAction.remote ("gcal-1"), DelAction.localDelete 1].count
       (DelAction.remote ("gcal-1")) = 1) :=
  ⟨rfl, rfl, by decide,
   c6_delete_remote_once RemoteOutcome.raiseErr [w6event] 1 w6event
     ("gcal-1") rfl rfl (by decide)⟩

/-- C8: GET /events returns exactly the Events whose start time is at or
after now — with no condition on status, so cancelled and tentative rows
pass — sorted ascending by start time. -/
theorem c8_get_events_spec (now : Int) (db : List StoredEvent) :
    List.Sorted (fun a b : StoredEvent => a.start_time ≤ b.start_time)
      (get_events now db) ∧
    (∀ e, e ∈ get_events now db ↔ e ∈ db ∧ now ≤ e.start_time) ∧
    (get_events now db).Perm (db.filter (fun e => now ≤ e.start_time)) := by
  have hperm : (get_events now db).Perm
      (db.filter (fun e => now ≤ e.start_time)) :=
    List.perm_insertionSort _ _
  refine ⟨List.sorted_insertionSort _ _, ?_, hperm⟩
  intro e
  rw [hperm.mem_iff, List.mem_filter]
  simp

/-- C5: pull-sync is additive-only — the resulting Event table is the
original table with the new rows appended, so every pre-existing local Event
(in particular one whose remote id matches an incoming remote event) keeps
every field unchanged, at its original position, and is never deleted. -/
theorem c5_sync_additive_only (now : Int) (nid : Nat) (db : List StoredEvent)
    (remote : List RemoteEvent) :
    ∃ extra, (sync_calendar now nid db remote).1 = db ++ extra ∧
      ∀ e ∈ db, e ∈ (sync_calendar now nid db remote).1 := by
  unfold sync_calendar
  cases h : syncGo now db nid remote with
  | none =>
    refine ⟨[], by simp, ?_⟩
    intro e he
    simpa using he
  | some p =>
    obtain ⟨rows, c⟩ := p
    refine ⟨rows, by simp, ?_⟩
    intro e he
    simp [he]

/-- C10: a PUT update of an Event carrying a non-null remote calendar id
stamps synced_at = now for every provider outcome, including the provider
raising: `update_calendar_event` wraps its whole body in try/except and
always returns normally, so the caller's except branch (which would skip the
stamp) is unreachable.  (Provider-assigned ids are non-empty; `rid ≠ ""`
mirrors the truthiness test `if event.calendar_event_id:`.) -/
theorem c10_update_stamps_synced (o : RemoteOutcome) (now : Int)
    (db : List StoredEvent) (eid : Nat) (d : EventCreate) (ev : StoredEvent)
    (hfind : db.find? (fun e => e.id == eid) = some ev) (rid : String)
    (hrid : ev.calendar_event_id = some rid) (hne : rid ≠ ("")) :
    ∃ db2 ev2, update_event o now db eid d = .ok (db2, ev2) ∧
      ev2.synced_at = some now := by
  obtain ⟨b, hb⟩ := update_calendar_event_ok o
  unfold update_event
  rw [hfind]
  simp only [hrid, hb, if_neg hne]
  exact ⟨_, _, rfl, rfl⟩

/-- Witness for C10 with a raising provider: synced_at is stamped anyway. -/
theorem c10_update_stamps_synced_witness :
    ([w6event].find? (fun e => e.id == 1) = some w6event) ∧
    (w6event.calendar_event_id = some ("gcal-1")) ∧
    (("gcal-1" : String) ≠ ("")) ∧
    (∃ db2 ev2,
      update_event RemoteOutcome.raiseErr 555 [w6event] 1 w10data =
        .ok (db2, ev2) ∧ ev2.synced_at = some 555) :=
  ⟨rfl, rfl, by decide,
   c10_update_stamps_synced RemoteOutcome.raiseErr 555 [w6event] 1 w10data
     w6event rfl ("gcal-1") rfl (by decide)⟩

/-- C4: pull-sync is idempotent.  With an unchanged remote list whose events
have distinct ids and parsable dates, running /sync-calendar a second time
against the state produced by the first run inserts no rows and reports
count 0.  (Distinct ids keep the model faithful: with duplicates, a single
run would stage two rows with the same remote id and the column's unique
constraint would abort the commit, which the model does not represent.) -/
theorem c4_sync_idempotent (now1 now2 : Int) (nid1 nid2 : Nat)
    (db : List StoredEvent) (remote : List RemoteEvent)
    (_hdist : (remote.map (fun g => g.id)).Nodup)
    (hparse : ∀ g ∈ remote, remoteParses g = true) :
    sync_calendar now2 nid2 (sync_calendar now1 nid1 db remote).1 remote =
      ((sync_calendar now1 nid1 db remote).1, 0) := by
  obtain ⟨rows, c, h1⟩ := syncGo_ok now1 db nid1 remote hparse
  have hdb1 : (sync_calendar now1 nid1 db remote).1 = db ++ rows := by
    simp [sync_calendar, h1]
  have hcov : ∀ g ∈ remote,
      (db ++ rows).any (fun e => e.calendar_event_id == some g.id) = true :=
    fun g hg => syncGo_covers now1 db nid1 remote rows c h1 g hg
  rw [hdb1]
  have h2 := syncGo_all_present now2 (db ++ rows) nid2 remote hcov
  simp [sync_calendar, h2]

/-- Witness for C4: one remote event, empty local table. -/
theorem c4_sync_idempotent_witness :
    (([wRemote].map (fun g => g.id)).Nodup) ∧
    (∀ g ∈ [wRemote], remoteParses g = true) ∧
    sync_calendar 7 10 (sync_calendar 5 1 [] [wRemote]).1 [wRemote] =
      ((sync_calendar 5 1 [] [wRemote]).1, 0) := by
  have hp : ∀ g ∈ [wRemote], remoteParses g = true := by
    intro g hg
    rw [List.mem_singleton.mp hg]
    rfl
  exact ⟨by simp, hp, c4_sync_idempotent 5 7 1 10 [] [wRemote] (by simp) hp⟩

/-- C3: in the chat forward path, for every draft whose remote creation
returns null (provider unreachable or unconfigured), the local Event row is
still committed with a null remote calendar id and unset synced_at, nothing
is rolled back (one row per draft is in the final list), and the request
finishes without an error. -/
theorem c3_chat_persists_on_remote_null (o : Nat → RemoteOutcome)
    (rid : Nat → String) (now : Int) (evs : List PyVal)
    (h : ∀ ev ∈ evs, chatEvOkB ev = true) :
    ∃ rows, chatForward o rid now evs = (rows, none) ∧
      rows.length = evs.length ∧
      ∀ i (hi : i < rows.length),
        create_calendar_event (o i) (rid i) = .ok none →
        (rows.get ⟨i, hi⟩).calendar_event_id = none ∧
        (rows.get ⟨i, hi⟩).synced_at = none := by
  obtain ⟨rows, h1, h2, h3⟩ := chatProcessEvents_ok o rid now evs 0 h
  refine ⟨rows, h1, h2, ?_⟩
  intro i hi hc
  exact h3 i hi (by simpa using hc)

/-- Witness for C3: one well-formed draft against an unconfigured provider. -/
theorem c3_chat_persists_on_remote_null_witness :
    (∀ ev ∈ [wDraft], chatEvOkB ev = true) ∧
    (∃ rows,
      chatForward (fun _ => RemoteOutcome.noService) (fun _ => ("gcal-x")) 999
        [wDraft] = (rows, none) ∧
      rows.length = [wDraft].length ∧
      ∀ i (hi : i < rows.length),
        create_calendar_event ((fun _ => RemoteOutcome.noService) i)
          ((fun _ => ("gcal-x")) i) = .ok none →
        (rows.get ⟨i, hi⟩).calendar_event_id = none ∧
        (rows.get ⟨i, hi⟩).synced_at = none) := by
  have hok : ∀ ev ∈ [wDraft], chatEvOkB ev = true := by
    intro ev hev
    rw [List.mem_singleton.mp hev]
    rfl
  exact ⟨hok,
    c3_chat_persists_on_remote_null (fun _ => RemoteOutcome.noService)
      (fun _ => ("gcal-x")) 999 [wDraft] hok⟩

end SmartScheduler
